import Mathlib

/-!
Verification development for the VK → Yandex.Disk photo backup program
(`main.py`).  The definitions below are a shallow embedding of the core
pipeline: size-variant selection, collision-free filename allocation,
idempotent destination-folder provisioning, upload-status handling and the
orchestrating `backup_photos` loop.  Network responses are modelled as
explicit status-code parameters; the Yandex disk is modelled as the finite
set of existing folder paths.
-/

namespace VKYD

/-- One size variant of a photo: `{width, height, url, type}` as delivered by
the VK API (`photo_sizes=1`). -/
structure Size where
  width : Nat
  height : Nat
  url : String
  type : String
deriving DecidableEq, Repr

/-- One photo record: identifier, capture timestamp (epoch seconds),
likes count and the list of size variants.  Mirrors the dictionary fields
`id`, `date`, `likes.count`, `sizes` read by `main.py`. -/
structure Photo where
  id : Nat
  date : Nat
  likes : Nat
  sizes : List Size
deriving DecidableEq, Repr

/-- Pixel area of a size variant, `size.get('width', 0) * size.get('height', 0)`. -/
def area (s : Size) : Nat := s.width * s.height

/-- Decimal digit as a character, `'0'` … `'9'`. -/
def digitChar (d : Nat) : Char := Char.ofNat (48 + d)

/-- Little-endian decimal digits of `n`, computed with explicit fuel so the
definition is structural and kernel-reducible. -/
def natDecDigits : Nat → Nat → List Nat
  | 0, _ => []
  | fuel + 1, n => if n < 10 then [n] else n % 10 :: natDecDigits fuel (n / 10)

/-- Little-endian decimal digits of `n` (with canonical, sufficient fuel). -/
def decDigits (n : Nat) : List Nat := natDecDigits (n + 1) n

/-- Decimal rendering of a natural number, the model of Python's
`f"{n}"` / `str(n)` for non-negative integers. -/
def natDecimal (n : Nat) : String := ⟨(decDigits n).reverse.map digitChar⟩

/-- Value of a little-endian decimal digit list. -/
def ofDec : List Nat → Nat
  | [] => 0
  | d :: ds => d + 10 * ofDec ds

/-- Civil date (year, month, day) of a day count since 1970-01-01, proleptic
Gregorian calendar (Howard Hinnant's `civil_from_days`, shifted to stay in
`Nat`). -/
def civilFromDays (z : Nat) : Nat × Nat × Nat :=
  let z' := z + 719468
  let era := z' / 146097
  let doe := z' % 146097
  let yoe := (doe - doe / 1460 + doe / 36524 - doe / 146096) / 365
  let y := yoe + era * 400
  let doy := doe - (365 * yoe + yoe / 4 - yoe / 100)
  let mp := (5 * doy + 2) / 153
  let d := doy - (153 * mp + 2) / 5 + 1
  let m := if mp < 10 then mp + 3 else mp - 9
  if m ≤ 2 then (y + 1, m, d) else (y, m, d)

/-- Zero-pad a number to two decimal digits (`%m`, `%d`). -/
def pad2 (n : Nat) : String := if n < 10 then "0" ++ natDecimal n else natDecimal n

/-- Zero-pad a number to four decimal digits (`%Y`). -/
def pad4 (n : Nat) : String :=
  if n < 10 then "000" ++ natDecimal n
  else if n < 100 then "00" ++ natDecimal n
  else if n < 1000 then "0" ++ natDecimal n
  else natDecimal n

/-- Model of `datetime.fromtimestamp(ts).strftime('%Y-%m-%d')` (UTC reading
of the timestamp; the code's local-timezone offset is environment
configuration, the format is the fixed `YYYY-MM-DD`). -/
def dateStr (ts : Nat) : String :=
  let c := civilFromDays (ts / 86400)
  pad4 c.1 ++ "-" ++ pad2 c.2.1 ++ "-" ++ pad2 c.2.2

/-- Base filename chosen by `generate_filename` before collision handling:
the likes count, with the capture date appended when more than one photo of
the run shares that likes count (`main.py` lines 244-260). -/
def photoBase (photo : Photo) (photos : List Photo) : String :=
  if (photos.filter (fun p => p.likes == photo.likes)).length > 1 then
    natDecimal photo.likes ++ "_" ++ dateStr photo.date
  else
    natDecimal photo.likes

/-- The `n`-th candidate filename tried by `generate_filename`'s collision
loop: first `base.jpg`, then `base_id.jpg`, then `base_id_2.jpg`,
`base_id_3.jpg`, … (`main.py` lines 262-270). -/
def cand (base pid : String) : Nat → String
  | 0 => base ++ ".jpg"
  | 1 => base ++ "_" ++ pid ++ ".jpg"
  | n + 2 => base ++ "_" ++ pid ++ "_" ++ natDecimal (n + 2) ++ ".jpg"

/-- The `while filename in used_filenames` loop of `generate_filename`,
with explicit fuel: starting from candidate index `n`, return the first
candidate not in the tracking set. -/
def fnLoopFuel (used : Finset String) (base pid : String) : Nat → Nat → Option String
  | _, 0 => none
  | n, fuel + 1 =>
    if cand base pid n ∈ used then fnLoopFuel used base pid (n + 1) fuel
    else some (cand base pid n)

/-- Embedding of `generate_filename(photo, photos, used_filenames)`
(`main.py` lines 232-273).  The function only reads `photo` and `photos`;
its one state effect, the `used_filenames.add(filename)`, is returned as the
second component.  Fuel `used.card + 1` is provably sufficient for the
collision loop (see `fnLoopFuel_isSome`). -/
def generate_filename (photo : Photo) (photos : List Photo) (used : Finset String) :
    String × Finset String :=
  let base := photoBase photo photos
  let pid := natDecimal photo.id
  let name := (fnLoopFuel used base pid 0 (used.card + 1)).getD (cand base pid 0)
  (name, insert name used)

/-- The `for size in sizes` scan of `get_largest_photo_size`: keep the
current best variant, replacing it whenever a strictly larger pixel area is
seen (`main.py` lines 221-228). -/
def selectBest : List Size → Nat → Size → Size
  | [], _, best => best
  | s :: rest, maxSize, best =>
    if s.width * s.height > maxSize then selectBest rest (s.width * s.height) s
    else selectBest rest maxSize best

/-- Embedding of `get_largest_photo_size(photo)` (`main.py` lines 206-230):
error on an empty size list, otherwise the `(url, type)` of the variant kept
by the scan started with `max_size = 0`, `best_photo = sizes[0]`. -/
def get_largest_photo_size (photo : Photo) : Except String (String × String) :=
  match photo.sizes with
  | [] => .error "Размеры фотографии не найдены"
  | s0 :: _ =>
    let best := selectBest photo.sizes 0 s0
    .ok (best.url, best.type)

/-- Maximal pixel area over a list of size variants (spec-side definition of
"the variant maximizing width×height"). -/
def listMaxArea (sizes : List Size) : Nat := (sizes.map area).foldr max 0

/-- Model of `requests.Response.raise_for_status()`: raises exactly for the
4xx and 5xx status codes. -/
def raise_for_status (status : Nat) : Except String Unit :=
  if 400 ≤ status ∧ status < 600 then .error "HTTPError" else .ok ()

/-- Boolean error test for `Except` results. -/
def isErrB : Except ε α → Bool
  | .error _ => true
  | .ok _ => false

/-- Embedding of `upload_photo_to_yandex` (`main.py` lines 336-355) as a
function of the destination API's response status: `202` returns `True`;
any other status goes through `raise_for_status`, and when that does not
raise the Python function falls off the end returning `None` (modelled as
`.ok none`). -/
def upload_photo_to_yandex (status : Nat) : Except String (Option Bool) :=
  if status = 202 then .ok (some true)
  else
    match raise_for_status status with
    | .error e => .error e
    | .ok _ => .ok none

/-- Status of `GET /resources?path=/name` against a disk modelled as the set
of existing folder paths: `200` when the folder exists, `404` otherwise. -/
def resourceStatus (disk : Finset String) (name : String) : Nat :=
  if name ∈ disk then 200 else 404

/-- Embedding of `check_folder_exists` (`main.py` lines 131-151): true
exactly when the existence probe answers `200`. -/
def check_folder_exists (disk : Finset String) (name : String) : Bool :=
  resourceStatus disk name == 200

/-- Status of `PUT /resources?path=/name`: `201` (created) when the folder
is absent, `409` (already exists) when present. -/
def putFolderStatus (disk : Finset String) (name : String) : Nat :=
  if name ∈ disk then 409 else 201

/-- Embedding of `create_yandex_folder` (`main.py` lines 275-314).  `race`
injects a concurrent creator between the existence check and the `PUT`.
Returns the call result (`.ok (some true)` mirrors `return True`, `.ok
none` the fall-through), the disk state afterwards, and whether a `PUT`
(creation request) was issued. -/
def create_yandex_folder (disk : Finset String) (race : Bool) (name : String) :
    Except String (Option Bool) × Finset String × Bool :=
  if check_folder_exists disk name then (.ok (some true), disk, false)
  else
    let disk1 := if race then insert name disk else disk
    let st := putFolderStatus disk1 name
    if st = 201 then (.ok (some true), insert name disk1, true)
    else if st = 409 then (.ok (some true), disk1, true)
    else
      match raise_for_status st with
      | .error e => (.error e, disk1, true)
      | .ok _ => (.ok none, disk1, true)

/-- One manifest entry `{'file_name': …, 'size': …}` collected for a
successfully uploaded photo. -/
structure ManifestEntry where
  file_name : String
  size : String
deriving DecidableEq, Repr

/-- The result dictionary returned by `backup_photos`; `Option` fields model
keys that are present only in some of the returned dictionaries. -/
structure BackupResult where
  success : Bool
  message : Option String
  total_photos : Option Nat
  uploaded_photos : Option Nat
  folder_name : Option String
  json_file : Option String
  photos_info : Option (List ManifestEntry)
deriving DecidableEq, Repr

/-- The sort key `get_max_size` of `backup_photos` (`main.py` lines
413-417): maximal pixel area of the photo's variants, `0` when there are
none. -/
def get_max_size (photo : Photo) : Nat :=
  (photo.sizes.map (fun s => s.width * s.height)).foldr max 0

/-- Stable descending insertion by `get_max_size`; together with `sortPhotos`
this models Python's stable `photos.sort(key=get_max_size, reverse=True)`. -/
def insertDesc (p : Photo) : List Photo → List Photo
  | [] => [p]
  | q :: rest =>
    if get_max_size q ≤ get_max_size p then p :: q :: rest
    else q :: insertDesc p rest

/-- Stable sort of the photo list, descending by `get_max_size`. -/
def sortPhotos (photos : List Photo) : List Photo := photos.foldr insertDesc []

/-- Destination folder name `VK_Photos_{user_id}_{date}` (`main.py` line
421); the current date is an environment input. -/
def folderName (uid today : String) : String := "VK_Photos_" ++ uid ++ "_" ++ today

/-- Manifest file name `photos_info_{user_id}.json` (`main.py` line 368). -/
def jsonName (uid : String) : String := "photos_info_" ++ uid ++ ".json"

/-- The per-photo upload loop of `backup_photos` (`main.py` lines 430-456).
`us i` is the destination API's response status for the upload attempted at
loop index `i`; each photo's failure (size selection or upload) is caught
and the loop continues.  Returns the collected `photos_info` entries and
the number of successful uploads. -/
def backupLoop (us : Nat → Nat) (allPhotos : List Photo) :
    List Photo → Nat → Finset String → List ManifestEntry × Nat
  | [], _, _ => ([], 0)
  | p :: rest, i, used =>
    match get_largest_photo_size p with
    | .error _ => backupLoop us allPhotos rest (i + 1) used
    | .ok v =>
      let g := generate_filename p allPhotos used
      match upload_photo_to_yandex (us i) with
      | .error _ => backupLoop us allPhotos rest (i + 1) g.2
      | .ok _ =>
        let r := backupLoop us allPhotos rest (i + 1) g.2
        (⟨g.1, v.2⟩ :: r.1, r.2 + 1)

/-- Embedding of `backup_photos(user_id, count)` (`main.py` lines 381-483)
for runs in which the credential checks and the folder provisioning
succeed: `photos` is what `get_profile_photos` returned, `today` the
current date and `us` the upload response statuses.  Mirrors the three
return dictionaries of the source: no photos, zero successful uploads, and
the success result with counts, folder, manifest file and entries. -/
def backup_photos (uid today : String) (us : Nat → Nat) (photos : List Photo) :
    BackupResult :=
  if photos = [] then
    ⟨false, some "У пользователя нет фотографий в профиле или профиль закрыт",
      none, none, none, none, none⟩
  else
    let sorted := sortPhotos photos
    let r := backupLoop us sorted sorted 0 ∅
    if r.2 = 0 then
      ⟨false, some "Ни одна фотография не была загружена. Проверьте доступность сервисов.",
        none, none, none, none, none⟩
    else
      ⟨true, none, some sorted.length, some r.2, some (folderName uid today),
        some (jsonName uid), some r.1⟩

/-- Run of the filename allocator over a photo list: each photo of `rest` is
assigned a name by `generate_filename` against the full list `allPhotos`,
threading the tracking set exactly as `backup_photos` does. -/
def allocGo (allPhotos : List Photo) : List Photo → Finset String → List String
  | [], _ => []
  | p :: rest, used =>
    let g := generate_filename p allPhotos used
    g.1 :: allocGo allPhotos rest g.2

/-- Full allocator run over a photo list, starting from the empty tracking
set (as `backup_photos` does with `used_filenames = set()`). -/
def allocRun (photos : List Photo) : List String := allocGo photos photos ∅

/-- Five concrete photos with pairwise distinct likes counts and areas
5, 4, 3, 2, 1 (already in descending resolution order). -/
def photos5 : List Photo :=
  [⟨1, 100, 5, [⟨5, 1, "u1", "x"⟩]⟩,
   ⟨2, 200, 4, [⟨4, 1, "u2", "x"⟩]⟩,
   ⟨3, 300, 3, [⟨3, 1, "u3", "x"⟩]⟩,
   ⟨4, 400, 2, [⟨2, 1, "u4", "x"⟩]⟩,
   ⟨5, 500, 1, [⟨1, 1, "u5", "x"⟩]⟩]

/-- A concrete photo with one size variant. -/
def samplePhoto : Photo := ⟨1, 0, 3, [⟨10, 10, "u", "x"⟩]⟩

/-- Upload statuses making exactly the third attempted upload (index 2)
fail with a server error. -/
def usOneFail (i : Nat) : Nat := if i == 2 then 500 else 202

/-- A concrete photo with an empty size-variant list. -/
def pNoSizes : Photo := ⟨9, 0, 0, []⟩

/-- A concrete photo whose size-variant list has a tie for the maximal
area (variants `b` and `c`). -/
def photoTie : Photo := ⟨1, 0, 0, [⟨2, 2, "a", "s"⟩, ⟨3, 3, "b", "m"⟩, ⟨3, 3, "c", "l"⟩]⟩

/-- Two concrete photos sharing a likes count with capture dates one day
apart. -/
def p7a : Photo := ⟨1, 0, 7, []⟩

/-- Companion photo to `p7a`: same likes count, next day. -/
def p7b : Photo := ⟨2, 86400, 7, []⟩

/-! Helper lemmas: decimal rendering, candidate names, the collision loop. -/

/-- Appending strings concatenates their character data. -/
theorem sdata_app (a b : String) : (a ++ b).data = a.data ++ b.data := rfl

/-- Strings with equal character data are equal. -/
theorem str_ext {a b : String} (h : a.data = b.data) : a = b := by
  cases a; cases b; cases h; rfl

/-- The fuel of `natDecDigits` is irrelevant once it exceeds the number. -/
theorem natDecDigits_fuel : ∀ (n f g : Nat), n < f → n < g →
    natDecDigits f n = natDecDigits g n := by
  intro n
  induction n using Nat.strong_induction_on with
  | _ n ih =>
    intro f g hf hg
    cases f with
    | zero => omega
    | succ f' =>
      cases g with
      | zero => omega
      | succ g' =>
        simp only [natDecDigits]
        by_cases h10 : n < 10
        · simp [h10]
        · rw [if_neg h10, if_neg h10]
          have hlt : n / 10 < n := Nat.div_lt_self (by omega) (by omega)
          have := ih (n / 10) hlt f' g' (by omega) (by omega)
          rw [this]

/-- Unfolding of `decDigits` for small numbers. -/
theorem decDigits_small {n : Nat} (h : n < 10) : decDigits n = [n] := by
  simp [decDigits, natDecDigits, h]

/-- Unfolding of `decDigits` for numbers with several digits. -/
theorem decDigits_step {n : Nat} (h : ¬ n < 10) :
    decDigits n = n % 10 :: decDigits (n / 10) := by
  have hlt : n / 10 < n := Nat.div_lt_self (by omega) (by omega)
  show natDecDigits (n + 1) n = n % 10 :: natDecDigits (n / 10 + 1) (n / 10)
  rw [show natDecDigits (n + 1) n
      = if n < 10 then [n] else n % 10 :: natDecDigits n (n / 10) from rfl]
  rw [if_neg h, natDecDigits_fuel (n / 10) n (n / 10 + 1) hlt (by omega)]

/-- Every decimal digit produced by `decDigits` is below ten. -/
theorem decDigits_lt_ten : ∀ (n : Nat), ∀ d ∈ decDigits n, d < 10 := by
  intro n
  induction n using Nat.strong_induction_on with
  | _ n ih =>
    intro d hd
    by_cases h10 : n < 10
    · rw [decDigits_small h10] at hd
      simp at hd
      omega
    · rw [decDigits_step h10] at hd
      rcases List.mem_cons.mp hd with h | h
      · omega
      · exact ih (n / 10) (Nat.div_lt_self (by omega) (by omega)) d h

/-- The decimal digit list evaluates back to the number. -/
theorem ofDec_decDigits : ∀ (n : Nat), ofDec (decDigits n) = n := by
  intro n
  induction n using Nat.strong_induction_on with
  | _ n ih =>
    by_cases h10 : n < 10
    · rw [decDigits_small h10]
      simp [ofDec]
    · rw [decDigits_step h10]
      simp only [ofDec, ih (n / 10) (Nat.div_lt_self (by omega) (by omega))]
      omega

/-- Digit characters distinguish decimal digits. -/
theorem digitChar_inj10 : ∀ a < 10, ∀ b < 10, digitChar a = digitChar b → a = b := by
  decide

/-- Mapping `digitChar` over digit lists is injective. -/
theorem map_digitChar_inj : ∀ (l1 l2 : List Nat), (∀ d ∈ l1, d < 10) →
    (∀ d ∈ l2, d < 10) → l1.map digitChar = l2.map digitChar → l1 = l2 := by
  intro l1
  induction l1 with
  | nil =>
    intro l2 _ _ h
    cases l2 with
    | nil => rfl
    | cons b t2 => simp at h
  | cons a t ih =>
    intro l2 h1 h2 h
    cases l2 with
    | nil => simp at h
    | cons b t2 =>
      simp only [List.map_cons, List.cons.injEq] at h
      have hab : a = b :=
        digitChar_inj10 a (h1 a (by simp)) b (h2 b (by simp)) h.1
      have ht : t = t2 :=
        ih t2 (fun d hd => h1 d (by simp [hd])) (fun d hd => h2 d (by simp [hd])) h.2
      rw [hab, ht]

/-- Decimal rendering of natural numbers is injective. -/
theorem natDecimal_inj {m n : Nat} (h : natDecimal m = natDecimal n) : m = n := by
  have hd : (decDigits m).reverse.map digitChar = (decDigits n).reverse.map digitChar :=
    congrArg String.data h
  have hr : (decDigits m).reverse = (decDigits n).reverse :=
    map_digitChar_inj _ _
      (fun d hd' => decDigits_lt_ten m d (List.mem_reverse.mp hd'))
      (fun d hd' => decDigits_lt_ten n d (List.mem_reverse.mp hd')) hd
  have hdig : decDigits m = decDigits n := List.reverse_injective hr
  calc m = ofDec (decDigits m) := (ofDec_decDigits m).symm
    _ = ofDec (decDigits n) := by rw [hdig]
    _ = n := ofDec_decDigits n

/-- Distinct indices give distinct candidate filenames. -/
theorem cand_inj (base pid : String) : ∀ m n : Nat,
    cand base pid m = cand base pid n → m = n := by
  have len4 : (".jpg" : String).data.length = 4 := rfl
  have len1 : ("_" : String).data.length = 1 := rfl
  intro m n h
  match m, n with
  | 0, 0 => rfl
  | 1, 1 => rfl
  | 0, 1 =>
    exfalso
    have hd := congrArg (fun s => s.data.length) h
    simp only [cand, sdata_app, List.length_append, len4, len1] at hd
    omega
  | 1, 0 =>
    exfalso
    have hd := congrArg (fun s => s.data.length) h
    simp only [cand, sdata_app, List.length_append, len4, len1] at hd
    omega
  | 0, k + 2 =>
    exfalso
    have hd := congrArg (fun s => s.data.length) h
    simp only [cand, sdata_app, List.length_append, len4, len1] at hd
    omega
  | k + 2, 0 =>
    exfalso
    have hd := congrArg (fun s => s.data.length) h
    simp only [cand, sdata_app, List.length_append, len4, len1] at hd
    omega
  | 1, k + 2 =>
    exfalso
    have hd := congrArg (fun s => s.data.length) h
    simp only [cand, sdata_app, List.length_append, len4, len1] at hd
    omega
  | k + 2, 1 =>
    exfalso
    have hd := congrArg (fun s => s.data.length) h
    simp only [cand, sdata_app, List.length_append, len4, len1] at hd
    omega
  | j + 2, k + 2 =>
    have hd := congrArg String.data h
    simp only [cand, sdata_app, List.append_assoc] at hd
    have h1 := List.append_cancel_left hd
    have h2 := List.append_cancel_left h1
    have h3 := List.append_cancel_left h2
    have h4 := List.append_cancel_left h3
    have h5 := List.append_cancel_right h4
    have h6 : j + 2 = k + 2 := natDecimal_inj (str_ext h5)
    omega

/-- The collision loop only looks at membership of candidate names at or
after its current index. -/
theorem fnLoop_congr (base pid : String) : ∀ (fuel n : Nat) (u u' : Finset String),
    (∀ m, n ≤ m → (cand base pid m ∈ u ↔ cand base pid m ∈ u')) →
    fnLoopFuel u base pid n fuel = fnLoopFuel u' base pid n fuel := by
  intro fuel
  induction fuel with
  | zero => intro n u u' _; rfl
  | succ f ih =>
    intro n u u' h
    simp only [fnLoopFuel]
    by_cases hm : cand base pid n ∈ u
    · rw [if_pos hm, if_pos ((h n le_rfl).mp hm)]
      exact ih (n + 1) u u' (fun m hm' => h m (by omega))
    · rw [if_neg hm, if_neg (fun hc => hm ((h n le_rfl).mpr hc))]

/-- With fuel exceeding the tracking set's size, the collision loop always
finds a free candidate. -/
theorem fnLoopFuel_isSome (base pid : String) : ∀ (fuel n : Nat) (u : Finset String),
    u.card < fuel → ∃ s, fnLoopFuel u base pid n fuel = some s := by
  intro fuel
  induction fuel with
  | zero => intro n u h; omega
  | succ f ih =>
    intro n u h
    simp only [fnLoopFuel]
    by_cases hm : cand base pid n ∈ u
    · rw [if_pos hm]
      have hcard : 1 ≤ u.card := Finset.card_pos.mpr ⟨_, hm⟩
      rw [fnLoop_congr base pid f (n + 1) u (u.erase (cand base pid n))
        (fun m hm' => by
          rw [Finset.mem_erase]
          constructor
          · intro hin
            refine ⟨fun he => ?_, hin⟩
            have := cand_inj base pid m n he
            omega
          · intro hin
            exact hin.2)]
      apply ih (n + 1)
      rw [Finset.card_erase_of_mem hm]
      omega
    · rw [if_neg hm]
      exact ⟨_, rfl⟩

/-- A name returned by the collision loop is a candidate name that is not in
the tracking set. -/
theorem fnLoop_spec (base pid : String) : ∀ (fuel n : Nat) (u : Finset String) (s : String),
    fnLoopFuel u base pid n fuel = some s → s ∉ u ∧ ∃ k, s = cand base pid k := by
  intro fuel
  induction fuel with
  | zero => intro n u s h; simp [fnLoopFuel] at h
  | succ f ih =>
    intro n u s h
    simp only [fnLoopFuel] at h
    by_cases hm : cand base pid n ∈ u
    · rw [if_pos hm] at h
      exact ih (n + 1) u s h
    · rw [if_neg hm] at h
      cases h
      exact ⟨hm, n, rfl⟩

/-- Specification of the name chosen by `generate_filename`: it is a
candidate name, absent from the input tracking set, and it is exactly what
the collision loop returns. -/
theorem generate_filename_spec (photo : Photo) (photos : List Photo) (used : Finset String) :
    (generate_filename photo photos used).1 ∉ used ∧
    (∃ k, (generate_filename photo photos used).1
        = cand (photoBase photo photos) (natDecimal photo.id) k) ∧
    fnLoopFuel used (photoBase photo photos) (natDecimal photo.id) 0 (used.card + 1)
      = some (generate_filename photo photos used).1 := by
  obtain ⟨s, hs⟩ := fnLoopFuel_isSome (photoBase photo photos) (natDecimal photo.id)
    (used.card + 1) 0 used (by omega)
  have h1 : (generate_filename photo photos used).1 = s := by
    simp [generate_filename, hs]
  obtain ⟨hnot, k, hk⟩ := fnLoop_spec (photoBase photo photos) (natDecimal photo.id)
    (used.card + 1) 0 used s hs
  rw [h1]
  exact ⟨hnot, ⟨k, hk⟩, hs⟩

/-- The tracking set after `generate_filename` is the input set plus the
returned name. -/
theorem generate_filename_snd (photo : Photo) (photos : List Photo) (used : Finset String) :
    (generate_filename photo photos used).2
      = insert (generate_filename photo photos used).1 used := rfl

/-- Every candidate filename ends with the fixed extension. -/
theorem cand_ends_jpg (base pid : String) : ∀ n, ∃ t, cand base pid n = t ++ ".jpg" := by
  intro n
  match n with
  | 0 => exact ⟨base, rfl⟩
  | 1 => exact ⟨base ++ "_" ++ pid, rfl⟩
  | k + 2 => exact ⟨base ++ "_" ++ pid ++ "_" ++ natDecimal (k + 2), rfl⟩

/-- Every candidate filename starts with the base name. -/
theorem cand_starts_base (base pid : String) : ∀ n, ∃ t, cand base pid n = base ++ t := by
  intro n
  match n with
  | 0 => exact ⟨".jpg", rfl⟩
  | 1 => exact ⟨"_" ++ pid ++ ".jpg", by simp [cand, String.append_assoc]⟩
  | k + 2 =>
    exact ⟨"_" ++ pid ++ "_" ++ natDecimal (k + 2) ++ ".jpg",
      by simp [cand, String.append_assoc]⟩

/-- The allocator run emits pairwise distinct names, none of which was in
the tracking set it started from. -/
theorem allocGo_spec (all : List Photo) : ∀ (rest : List Photo) (used : Finset String),
    (allocGo all rest used).Nodup ∧ (∀ x ∈ allocGo all rest used, x ∉ used) := by
  intro rest
  induction rest with
  | nil => intro used; simp [allocGo]
  | cons p t ih =>
    intro used
    simp only [allocGo]
    obtain ⟨hnd, hmem⟩ := ih (generate_filename p all used).2
    refine ⟨List.nodup_cons.mpr ⟨fun hx => ?_, hnd⟩, ?_⟩
    · have := hmem _ hx
      rw [generate_filename_snd] at this
      exact this (Finset.mem_insert_self _ _)
    · intro x hx
      rcases List.mem_cons.mp hx with h | h
      · rw [h]
        exact (generate_filename_spec p all used).1
      · intro hxu
        have := hmem x h
        rw [generate_filename_snd] at this
        exact this (Finset.mem_insert_of_mem hxu)

/-- Every name emitted by the allocator run ends with the fixed extension. -/
theorem allocGo_ends_jpg (all : List Photo) : ∀ (rest : List Photo) (used : Finset String),
    ∀ x ∈ allocGo all rest used, ∃ t, x = t ++ ".jpg" := by
  intro rest
  induction rest with
  | nil => intro used x hx; simp [allocGo] at hx
  | cons p t ih =>
    intro used x hx
    rcases List.mem_cons.mp hx with h | h
    · obtain ⟨-, ⟨k, hk⟩, -⟩ := generate_filename_spec p all used
      rw [h, hk]
      exact cand_ends_jpg _ _ k
    · exact ih _ x h

/-- A list containing two distinct elements has more than one element. -/
theorem one_lt_length_of_two_mem {α : Type} {a b : α} {l : List α}
    (ha : a ∈ l) (hb : b ∈ l) (hab : a ≠ b) : 1 < l.length := by
  match l with
  | [] => cases ha
  | [x] =>
    simp at ha hb
    exact absurd (ha.trans hb.symm) hab
  | x :: y :: rest => simp

/-- The selection scan returns its accumulator when nothing beats it. -/
theorem selectBest_le : ∀ (l : List Size) (m : Nat) (b : Size),
    (∀ s ∈ l, area s ≤ m) → selectBest l m b = b := by
  intro l
  induction l with
  | nil => intro m b _; rfl
  | cons s t ih =>
    intro m b h
    simp only [selectBest]
    rw [if_neg (by have := h s (by simp); simp only [area] at this; omega)]
    exact ih m b (fun x hx => h x (List.mem_cons_of_mem s hx))

/-- When some element beats the running maximum, the scan returns the first
element attaining the largest area: the list splits around the result, with
strictly smaller areas before it (modulo the initial threshold) and no
larger area after it. -/
theorem selectBest_max : ∀ (l : List Size) (m : Nat) (b : Size),
    (∃ s ∈ l, m < area s) →
    ∃ l1 r l2, l = l1 ++ r :: l2 ∧ selectBest l m b = r ∧ m < area r ∧
      (∀ s ∈ l1, area s ≤ m ∨ area s < area r) ∧ (∀ s ∈ l2, area s ≤ area r) := by
  intro l
  induction l with
  | nil => intro m b h; simp at h
  | cons s t ih =>
    intro m b hex
    simp only [selectBest]
    by_cases hs : s.width * s.height > m
    · rw [if_pos hs]
      have hsm : m < area s := hs
      by_cases ht : ∃ x ∈ t, area s < area x
      · obtain ⟨l1, r, l2, heq, hsel, hlt, h1, h2⟩ := ih (area s) s ht
        refine ⟨s :: l1, r, l2, by rw [heq, List.cons_append], hsel, by omega, ?_, h2⟩
        intro x hx
        rcases List.mem_cons.mp hx with h | h
        · right; rw [h]; omega
        · rcases h1 x h with h' | h'
          · right; omega
          · right; exact h'
      · push_neg at ht
        rw [selectBest_le t (s.width * s.height) s ht]
        exact ⟨[], s, t, rfl, rfl, hsm, by simp, ht⟩
    · rw [if_neg hs]
      obtain ⟨w, hw, hwm⟩ := hex
      have hsm : area s ≤ m := by simp only [area] at hs ⊢; omega
      have hwt : w ∈ t := by
        rcases List.mem_cons.mp hw with h | h
        · exfalso; rw [h] at hwm; omega
        · exact h
      obtain ⟨l1, r, l2, heq, hsel, hlt, h1, h2⟩ := ih m b ⟨w, hwt, hwm⟩
      refine ⟨s :: l1, r, l2, by rw [heq, List.cons_append], hsel, hlt, ?_, h2⟩
      intro x hx
      rcases List.mem_cons.mp hx with h | h
      · left; rw [h]; exact hsm
      · exact h1 x h

/-- C2: `get_largest_photo_size` returns the size variant of maximal
width×height, the first occurrence when several variants tie, and fails
with the invalid-input error on a photo with no size variants. -/
theorem claim_C2_largest_size (photo : Photo) :
    (photo.sizes = [] →
      get_largest_photo_size photo = .error "Размеры фотографии не найдены") ∧
    (photo.sizes ≠ [] → ∃ l1 best l2,
      photo.sizes = l1 ++ best :: l2 ∧
      get_largest_photo_size photo = .ok (best.url, best.type) ∧
      (∀ s ∈ photo.sizes, area s ≤ area best) ∧
      (∀ s ∈ l1, area s < area best)) := by
  constructor
  · intro h
    simp [get_largest_photo_size, h]
  · intro h
    obtain ⟨s0, rest, hs⟩ : ∃ s0 rest, photo.sizes = s0 :: rest := by
      cases hsz : photo.sizes with
      | nil => exact absurd hsz h
      | cons a t => exact ⟨a, t, rfl⟩
    have hg : get_largest_photo_size photo
        = .ok ((selectBest (s0 :: rest) 0 s0).url, (selectBest (s0 :: rest) 0 s0).type) := by
      simp [get_largest_photo_size, hs]
    by_cases hex : ∃ x ∈ s0 :: rest, 0 < area x
    · obtain ⟨l1, r, l2, heq, hsel, hlt, h1, h2⟩ := selectBest_max (s0 :: rest) 0 s0 hex
      refine ⟨l1, r, l2, by rw [hs, heq], by rw [hg, hsel], ?_, ?_⟩
      · intro s hsm
        rw [hs, heq] at hsm
        rcases List.mem_append.mp hsm with h' | h'
        · rcases h1 s h' with h'' | h''
          · omega
          · omega
        · rcases List.mem_cons.mp h' with h'' | h''
          · rw [h'']
          · exact h2 s h''
      · intro s hsm
        rcases h1 s hsm with h' | h'
        · omega
        · exact h'
    · push_neg at hex
      have hall : ∀ x ∈ s0 :: rest, area x ≤ 0 := fun x hx => hex x hx
      have hsel : selectBest (s0 :: rest) 0 s0 = s0 := selectBest_le _ 0 s0 hall
      refine ⟨[], s0, rest, by simp [hs], by rw [hg, hsel], ?_, by simp⟩
      intro s hsm
      rw [hs] at hsm
      have h1 := hall s hsm
      have h2 := hall s0 (by simp)
      omega

/-- C1: every allocator run from the empty tracking set emits pairwise
distinct filenames, no call returns a name already in the tracking set, and
every returned filename ends with the fixed `.jpg` extension. -/
theorem claim_C1_distinct_jpg_filenames :
    (∀ photos : List Photo, (allocRun photos).Nodup ∧
      ∀ x ∈ allocRun photos, ∃ t, x = t ++ ".jpg") ∧
    (∀ (photo : Photo) (photos : List Photo) (used : Finset String),
      (generate_filename photo photos used).1 ∉ used) := by
  constructor
  · intro photos
    exact ⟨(allocGo_spec photos photos ∅).1, fun x hx => allocGo_ends_jpg photos photos ∅ x hx⟩
  · intro p ps u
    exact (generate_filename_spec p ps u).1

/-- C9: the collision loop of `generate_filename` terminates — some finite
fuel makes the `while`-loop embedding return exactly the allocated name,
which is free in the tracking set. -/
theorem claim_C9_loop_terminates (photo : Photo) (photos : List Photo) (used : Finset String) :
    ∃ fuel, fnLoopFuel used (photoBase photo photos) (natDecimal photo.id) 0 fuel
        = some (generate_filename photo photos used).1 ∧
      (generate_filename photo photos used).1 ∉ used :=
  ⟨used.card + 1, (generate_filename_spec photo photos used).2.2,
    (generate_filename_spec photo photos used).1⟩

/-- C10: the only state effect of `generate_filename` is one insertion —
the tracking set afterwards is exactly the old set plus the returned name
(which was not present, so the set grows by exactly one); the photo and the
photo list are only read. -/
theorem claim_C10_single_insertion (photo : Photo) (photos : List Photo) (used : Finset String) :
    (generate_filename photo photos used).2
        = insert (generate_filename photo photos used).1 used ∧
    (generate_filename photo photos used).1 ∉ used ∧
    ((generate_filename photo photos used).2).card = used.card + 1 := by
  refine ⟨rfl, (generate_filename_spec photo photos used).1, ?_⟩
  rw [generate_filename_snd,
    Finset.card_insert_of_not_mem (generate_filename_spec photo photos used).1]

/-- C7: two photos of the same run with equal likes counts and different
capture-date strings both receive the date inside their filenames, and the
two filenames differ. -/
theorem claim_C7_date_suffix (photos : List Photo) (p1 p2 : Photo) (used : Finset String)
    (h1 : p1 ∈ photos) (h2 : p2 ∈ photos) (hl : p1.likes = p2.likes)
    (hd : dateStr p1.date ≠ dateStr p2.date) :
    (∃ t, (generate_filename p1 photos used).1
        = natDecimal p1.likes ++ "_" ++ dateStr p1.date ++ t) ∧
    (∃ t, (generate_filename p2 photos (generate_filename p1 photos used).2).1
        = natDecimal p2.likes ++ "_" ++ dateStr p2.date ++ t) ∧
    (generate_filename p1 photos used).1
      ≠ (generate_filename p2 photos (generate_filename p1 photos used).2).1 := by
  have hne : p1 ≠ p2 := fun he => hd (by rw [he])
  have hfilter : ∀ q : Photo, q.likes = p1.likes →
      1 < (photos.filter (fun p => p.likes == q.likes)).length := by
    intro q hq
    have m1 : p1 ∈ photos.filter (fun p => p.likes == q.likes) :=
      List.mem_filter.mpr ⟨h1, by simp [hq]⟩
    have m2 : p2 ∈ photos.filter (fun p => p.likes == q.likes) :=
      List.mem_filter.mpr ⟨h2, by simp [hq, ← hl]⟩
    exact one_lt_length_of_two_mem m1 m2 hne
  have hb1 : photoBase p1 photos = natDecimal p1.likes ++ "_" ++ dateStr p1.date := by
    unfold photoBase
    rw [if_pos (hfilter p1 rfl)]
  have hb2 : photoBase p2 photos = natDecimal p2.likes ++ "_" ++ dateStr p2.date := by
    unfold photoBase
    rw [if_pos (hfilter p2 hl.symm)]
  obtain ⟨-, ⟨k1, hk1⟩, -⟩ := generate_filename_spec p1 photos used
  obtain ⟨hn2, ⟨k2, hk2⟩, -⟩ :=
    generate_filename_spec p2 photos (generate_filename p1 photos used).2
  refine ⟨?_, ?_, ?_⟩
  · obtain ⟨t, ht⟩ := cand_starts_base (photoBase p1 photos) (natDecimal p1.id) k1
    exact ⟨t, by rw [hk1, ht, hb1]⟩
  · obtain ⟨t, ht⟩ := cand_starts_base (photoBase p2 photos) (natDecimal p2.id) k2
    exact ⟨t, by rw [hk2, ht, hb2]⟩
  · intro he
    apply hn2
    rw [← he, generate_filename_snd]
    exact Finset.mem_insert_self _ _

/-- Witness for C7 at two concrete photos one day apart. -/
theorem claim_C7_witness :
    (p7a ∈ [p7a, p7b] ∧ p7b ∈ [p7a, p7b] ∧ p7a.likes = p7b.likes
      ∧ dateStr p7a.date ≠ dateStr p7b.date) ∧
    ((∃ t, (generate_filename p7a [p7a, p7b] ∅).1
        = natDecimal p7a.likes ++ "_" ++ dateStr p7a.date ++ t) ∧
     (∃ t, (generate_filename p7b [p7a, p7b] (generate_filename p7a [p7a, p7b] ∅).2).1
        = natDecimal p7b.likes ++ "_" ++ dateStr p7b.date ++ t) ∧
     (generate_filename p7a [p7a, p7b] ∅).1
       ≠ (generate_filename p7b [p7a, p7b] (generate_filename p7a [p7a, p7b] ∅).2).1) :=
  ⟨⟨by decide, by decide, by decide, by decide⟩,
    claim_C7_date_suffix [p7a, p7b] p7a p7b ∅ (by decide) (by decide) (by decide) (by decide)⟩

/-- The existence probe answers positively exactly for present folders. -/
theorem check_folder_exists_iff (disk : Finset String) (name : String) :
    check_folder_exists disk name = true ↔ name ∈ disk := by
  unfold check_folder_exists resourceStatus
  by_cases h : name ∈ disk
  · simp [h]
  · simp [h]

/-- When the folder already exists, `create_yandex_folder` succeeds without
issuing a creation request and leaves the disk unchanged. -/
theorem create_folder_mem {disk : Finset String} {name : String} (race : Bool)
    (h : name ∈ disk) :
    create_yandex_folder disk race name = (.ok (some true), disk, false) := by
  unfold create_yandex_folder
  rw [if_pos ((check_folder_exists_iff disk name).mpr h)]

/-- When the folder is absent, `create_yandex_folder` succeeds — whether its
`PUT` gets `201` or, because of a concurrent creator, `409` — and the folder
exists afterwards. -/
theorem create_folder_notmem {disk : Finset String} {name : String} (race : Bool)
    (h : name ∉ disk) :
    create_yandex_folder disk race name = (.ok (some true), insert name disk, true) := by
  unfold create_yandex_folder
  rw [if_neg (fun hc => h ((check_folder_exists_iff disk name).mp hc))]
  cases race with
  | false => simp [putFolderStatus, h]
  | true => simp [putFolderStatus, h, Finset.mem_insert_self]

/-- C8: `create_yandex_folder` is idempotent — it succeeds whether or not
the folder exists and whether or not a concurrent creator races it (a `409`
is success), a second sequential call succeeds without issuing a creation
request and leaves the disk unchanged, and no creation request is issued
when the folder already exists. -/
theorem claim_C8_idempotent (disk : Finset String) (name : String) (r1 r2 : Bool) :
    ((create_yandex_folder disk r1 name).1 = .ok (some true)) ∧
    ((create_yandex_folder (create_yandex_folder disk r1 name).2.1 r2 name).1
      = .ok (some true)) ∧
    ((create_yandex_folder (create_yandex_folder disk r1 name).2.1 r2 name).2.2 = false) ∧
    ((create_yandex_folder (create_yandex_folder disk r1 name).2.1 r2 name).2.1
      = (create_yandex_folder disk r1 name).2.1) ∧
    (name ∈ disk → (create_yandex_folder disk r1 name).2.2 = false) := by
  by_cases h : name ∈ disk
  · simp [create_folder_mem r1 h, create_folder_mem r2 h]
  · have h2 := create_folder_mem r2 (Finset.mem_insert_self name disk)
    simp [create_folder_notmem r1 h, h2, h]

/-- Witness for C8 on a one-folder disk. -/
theorem claim_C8_witness :
    ("a" ∈ ({"a"} : Finset String)) ∧ (create_yandex_folder {"a"} false "a").2.2 = false :=
  ⟨by decide, (claim_C8_idempotent {"a"} "a" false false).2.2.2.2 (by decide)⟩

/-- Counterexample to C3 as stated: status `200` is not the accepted status
`202`, yet the call raises no error (it returns `None`), and the orchestrator
loop counts such an item as a successful upload. -/
theorem claim_C3_counterexample :
    upload_photo_to_yandex 200 = .ok none ∧
    isErrB (upload_photo_to_yandex 200) = false ∧
    ¬ (200 : Nat) = 202 ∧
    (backupLoop (fun _ => 200) [samplePhoto] [samplePhoto] 0 ∅).2 = 1 :=
  ⟨rfl, rfl, by decide, by decide⟩

/-- C3 (amended): `upload_photo_to_yandex` returns `True` exactly on status
`202` and raises exactly for statuses in `[400, 600)`; any other status
falls through returning `None` without an error, which the caller counts as
success. -/
theorem claim_C3_amended (status : Nat) :
    (upload_photo_to_yandex status = .ok (some true) ↔ status = 202) ∧
    (isErrB (upload_photo_to_yandex status) = true ↔ 400 ≤ status ∧ status < 600) ∧
    (status ≠ 202 → ¬(400 ≤ status ∧ status < 600) →
      upload_photo_to_yandex status = .ok none) := by
  unfold upload_photo_to_yandex raise_for_status
  by_cases h202 : status = 202
  · subst h202
    rw [if_pos rfl]
    refine ⟨by simp, ?_, fun hne _ => absurd rfl hne⟩
    simp only [isErrB]
    constructor
    · intro h; cases h
    · intro h; omega
  · rw [if_neg h202]
    by_cases herr : 400 ≤ status ∧ status < 600
    · rw [if_pos herr]
      exact ⟨by simp [h202], by simp [isErrB, herr], fun _ hc => absurd herr hc⟩
    · rw [if_neg herr]
      exact ⟨by simp [h202], by simp [isErrB, herr], fun _ _ => rfl⟩

/-- Witness for the amended C3 at status `200`. -/
theorem claim_C3_amended_witness :
    ((200 : Nat) ≠ 202 ∧ ¬(400 ≤ (200 : Nat) ∧ (200 : Nat) < 600)) ∧
    upload_photo_to_yandex 200 = .ok none :=
  ⟨⟨by decide, by decide⟩, (claim_C3_amended 200).2.2 (by decide) (by decide)⟩

/-- Counterexample to C4 as stated: for an account with zero photos the
result carries no uploaded/total counts at all (so in particular not the
claimed counts of `0`), though success is indeed `false` and no manifest is
written. -/
theorem claim_C4_counterexample :
    (backup_photos "1" "2024-01-01" (fun _ => 202) []).uploaded_photos ≠ some 0 ∧
    (backup_photos "1" "2024-01-01" (fun _ => 202) []).total_photos ≠ some 0 ∧
    (backup_photos "1" "2024-01-01" (fun _ => 202) []).success = false ∧
    (backup_photos "1" "2024-01-01" (fun _ => 202) []).json_file = none := by
  decide

/-- C4 (amended): with zero accessible photos, `backup_photos` returns
`success = false` with the explanatory message and writes no manifest; the
returned dictionary omits the uploaded and total counts. -/
theorem claim_C4_amended (uid today : String) (us : Nat → Nat) :
    backup_photos uid today us []
      = ⟨false, some "У пользователя нет фотографий в профиле или профиль закрыт",
          none, none, none, none, none⟩ := rfl

/-- A run whose uploads all raise produces no manifest entries and no
successful uploads. -/
theorem backupLoop_all_err (us : Nat → Nat) (all : List Photo)
    (h : ∀ i, isErrB (upload_photo_to_yandex (us i)) = true) :
    ∀ (l : List Photo) (i : Nat) (used : Finset String),
      backupLoop us all l i used = ([], 0) := by
  intro l
  induction l with
  | nil => intro i used; rfl
  | cons p t ih =>
    intro i used
    cases hg : get_largest_photo_size p with
    | error e => simp only [backupLoop, hg]; exact ih (i + 1) used
    | ok v =>
      cases hu : upload_photo_to_yandex (us i) with
      | error e => simp only [backupLoop, hg, hu]; exact ih (i + 1) _
      | ok w =>
        exfalso
        have hb := h i
        rw [hu] at hb
        simp [isErrB] at hb

/-- Counterexample to C5 as stated: when all five uploads fail the result
carries no total/uploaded counts at all (so in particular not `total = 5`,
`uploaded = 0`), though success is indeed `false` and no manifest is
written. -/
theorem claim_C5_counterexample :
    (backup_photos "1" "D" (fun _ => 500) photos5).total_photos ≠ some 5 ∧
    (backup_photos "1" "D" (fun _ => 500) photos5).uploaded_photos ≠ some 0 ∧
    (backup_photos "1" "D" (fun _ => 500) photos5).success = false ∧
    (backup_photos "1" "D" (fun _ => 500) photos5).json_file = none := by
  decide

/-- C5 (amended): when every upload raises (all statuses in `[400, 600)`),
`backup_photos` returns `success = false` with the no-uploads message and
writes no manifest; the returned dictionary omits the counts. -/
theorem claim_C5_amended (uid today : String) (us : Nat → Nat) (photos : List Photo)
    (hne : photos ≠ []) (hfail : ∀ i, 400 ≤ us i ∧ us i < 600) :
    backup_photos uid today us photos
      = ⟨false,
          some "Ни одна фотография не была загружена. Проверьте доступность сервисов.",
          none, none, none, none, none⟩ := by
  have herr : ∀ i, isErrB (upload_photo_to_yandex (us i)) = true := by
    intro i
    have hf := hfail i
    unfold upload_photo_to_yandex raise_for_status
    rw [if_neg (by omega : ¬ us i = 202), if_pos hf]
    rfl
  simp only [backup_photos]
  rw [if_neg hne, backupLoop_all_err us (sortPhotos photos) herr (sortPhotos photos) 0 ∅]
  rfl

/-- Witness for the amended C5 on five concrete photos with all uploads
answering `500`. -/
theorem claim_C5_amended_witness :
    (photos5 ≠ [] ∧ ((400 : Nat) ≤ 500 ∧ (500 : Nat) < 600)) ∧
    backup_photos "1" "D" (fun _ => 500) photos5
      = ⟨false,
          some "Ни одна фотография не была загружена. Проверьте доступность сервисов.",
          none, none, none, none, none⟩ :=
  ⟨⟨by decide, by decide, by decide⟩,
    claim_C5_amended "1" "D" (fun _ => 500) photos5 (by decide)
      (fun _ => (⟨by decide, by decide⟩ : (400 : Nat) ≤ 500 ∧ (500 : Nat) < 600))⟩

/-- Length is preserved by the descending insertion. -/
theorem insertDesc_length (p : Photo) : ∀ l : List Photo,
    (insertDesc p l).length = l.length + 1 := by
  intro l
  induction l with
  | nil => rfl
  | cons q t ih =>
    simp only [insertDesc]
    by_cases h : get_max_size q ≤ get_max_size p
    · rw [if_pos h]; simp
    · rw [if_neg h]; simp [ih]

/-- Sorting the photos preserves their number. -/
theorem sortPhotos_length : ∀ photos : List Photo,
    (sortPhotos photos).length = photos.length := by
  intro photos
  induction photos with
  | nil => rfl
  | cons p t ih =>
    simp only [sortPhotos, List.foldr_cons] at ih ⊢
    rw [insertDesc_length, ih, List.length_cons]

/-- C6: a failing photo (size-selection error or upload error) is skipped
and the loop continues with the next photo; when at least one item
succeeds, `backup_photos` reports success with the total photo count, the
success count, and the manifest holding exactly the collected entries — in
particular, on five concrete photos with exactly one transport failure the
result is `success = true`, `uploaded = 4`, `total = 5` with the four
successful entries. -/
theorem claim_C6_failure_isolation :
    (∀ (us : Nat → Nat) (all : List Photo) (p : Photo) (rest : List Photo) (i : Nat)
        (used : Finset String) (e : String),
      get_largest_photo_size p = .error e →
      backupLoop us all (p :: rest) i used = backupLoop us all rest (i + 1) used) ∧
    (∀ (us : Nat → Nat) (all : List Photo) (p : Photo) (rest : List Photo) (i : Nat)
        (used : Finset String) (v : String × String) (e : String),
      get_largest_photo_size p = .ok v →
      upload_photo_to_yandex (us i) = .error e →
      backupLoop us all (p :: rest) i used
        = backupLoop us all rest (i + 1) (generate_filename p all used).2) ∧
    (∀ (uid today : String) (us : Nat → Nat) (photos : List Photo),
      photos ≠ [] →
      0 < (backupLoop us (sortPhotos photos) (sortPhotos photos) 0 ∅).2 →
      backup_photos uid today us photos
        = ⟨true, none, some photos.length,
            some (backupLoop us (sortPhotos photos) (sortPhotos photos) 0 ∅).2,
            some (folderName uid today), some (jsonName uid),
            some (backupLoop us (sortPhotos photos) (sortPhotos photos) 0 ∅).1⟩) ∧
    (backup_photos "1" "D" usOneFail photos5
      = ⟨true, none, some 5, some 4, some "VK_Photos_1_D", some "photos_info_1.json",
          some [⟨"5.jpg", "x"⟩, ⟨"4.jpg", "x"⟩, ⟨"2.jpg", "x"⟩, ⟨"1.jpg", "x"⟩]⟩) := by
  refine ⟨?_, ?_, ?_, by decide⟩
  · intro us all p rest i used e h
    simp only [backupLoop, h]
  · intro us all p rest i used v e hok herr
    simp only [backupLoop, hok, herr]
  · intro uid today us photos hne hpos
    simp only [backup_photos]
    rw [if_neg hne,
      if_neg (by omega : ¬ (backupLoop us (sortPhotos photos) (sortPhotos photos) 0 ∅).2 = 0),
      sortPhotos_length]

/-- Witness for C6: a photo without size variants is skipped and the loop
proceeds. -/
theorem claim_C6_witness :
    (get_largest_photo_size pNoSizes = .error "Размеры фотографии не найдены") ∧
    backupLoop (fun _ => 202) [pNoSizes] [pNoSizes] 0 ∅
      = backupLoop (fun _ => 202) [pNoSizes] [] 1 ∅ :=
  ⟨rfl, claim_C6_failure_isolation.1 (fun _ => 202) [pNoSizes] pNoSizes [] 0 ∅
    "Размеры фотографии не найдены" rfl⟩

/-- Witness for C1 on a one-photo run. -/
theorem claim_C1_witness :
    ("3.jpg" ∈ allocRun [samplePhoto]) ∧ (∃ t, "3.jpg" = t ++ ".jpg") :=
  ⟨by decide, (claim_C1_distinct_jpg_filenames.1 [samplePhoto]).2 "3.jpg" (by decide)⟩

/-- Witness for C2 on a photo whose maximal area is attained twice. -/
theorem claim_C2_witness :
    (photoTie.sizes ≠ []) ∧
    (∃ l1 best l2, photoTie.sizes = l1 ++ best :: l2 ∧
      get_largest_photo_size photoTie = .ok (best.url, best.type) ∧
      (∀ s ∈ photoTie.sizes, area s ≤ area best) ∧
      (∀ s ∈ l1, area s < area best)) :=
  ⟨by decide, (claim_C2_largest_size photoTie).2 (by decide)⟩

end VKYD
